import Mathlib

/-!
Verification of the vnode realization pipeline of the glTF importer
(`node.py` and `animation/morph_weight.py`).

The Python code walks a tree of "vnodes" (virtual nodes).  We embed the
parts of a vnode that each piece of code actually reads as Lean inductive
trees; the tree structure of the inductive makes the parent/child relation
and the `mesh_moved_to` forwarding relation structurally acyclic, which is
exactly the acyclicity invariant the spec states for them.
-/

namespace GltfImporter

/-! ## Mesh-Instance Locator (`find_mesh_instances` in morph_weight.py)

A vnode, as read by `find_mesh_instances`, has a truthy-or-not `mesh`
attribute and an ordered `mesh_moved_to` list of forwarding targets.
`mesh_moved_to` entries are modelled as child subtrees of the inductive,
so following them terminates structurally (the spec's acyclicity
invariant). -/

inductive MVNode where
  | mk (mesh : Bool) (mesh_moved_to : List MVNode)

def MVNode.mesh : MVNode → Bool
  | .mk m _ => m

def MVNode.mesh_moved_to : MVNode → List MVNode
  | .mk _ l => l

mutual

/-- `find_mesh_instances` from morph_weight.py:
if `vnode.mesh` is set return `[vnode]`, else concatenate the results
for each entry of `vnode.mesh_moved_to`, in order. -/
def find_mesh_instances : MVNode → List MVNode
  | .mk true moved => [.mk true moved]
  | .mk false moved => findList moved

/-- The `vnodes += find_mesh_instances(moved_to)` loop. -/
def findList : List MVNode → List MVNode
  | [] => []
  | v :: vs => find_mesh_instances v ++ findList vs

end

mutual

/-- Whether some vnode with `mesh` set is reachable through the
`mesh_moved_to` forwarding chain (the vnode itself included). -/
def hasMeshAnywhere : MVNode → Bool
  | .mk true _ => true
  | .mk false moved => hasMeshAnywhereList moved

def hasMeshAnywhereList : List MVNode → Bool
  | [] => false
  | v :: vs => hasMeshAnywhere v || hasMeshAnywhereList vs

end

/-! ## Transform Resolver for bones (`realize_bone` in node.py)

Blender's `mathutils` applies a 4x4 matrix to a 3-vector by treating it as
a position (homogeneous coordinate 1), i.e. an affine map.  We embed the
matrix as a 3x3 linear part plus a translation column over `ℚ`
(the structure of the computation does not depend on float rounding). -/

structure Vec3 where
  x : ℚ
  y : ℚ
  z : ℚ
deriving DecidableEq, Repr

/-- Componentwise difference, as in `mathutils.Vector` subtraction. -/
def Vec3.sub (a b : Vec3) : Vec3 :=
  ⟨a.x - b.x, a.y - b.y, a.z - b.z⟩

def Vec3.add (a b : Vec3) : Vec3 :=
  ⟨a.x + b.x, a.y + b.y, a.z + b.z⟩

def Vec3.smul (c : ℚ) (a : Vec3) : Vec3 :=
  ⟨c * a.x, c * a.y, c * a.z⟩

/-- A 4x4 `mathutils.Matrix` as used on 3-vectors: linear part `mIJ`
(row `I`, column `J`) plus translation column `tI`. -/
structure Aff where
  m00 : ℚ
  m01 : ℚ
  m02 : ℚ
  m10 : ℚ
  m11 : ℚ
  m12 : ℚ
  m20 : ℚ
  m21 : ℚ
  m22 : ℚ
  t0 : ℚ
  t1 : ℚ
  t2 : ℚ
deriving DecidableEq, Repr

/-- `mul(m, v)` from compat.py: matrix times position vector. -/
def mulAff (m : Aff) (v : Vec3) : Vec3 :=
  ⟨m.m00 * v.x + m.m01 * v.y + m.m02 * v.z + m.t0,
   m.m10 * v.x + m.m11 * v.y + m.m12 * v.z + m.t1,
   m.m20 * v.x + m.m21 * v.y + m.m22 * v.z + m.t2⟩

def Aff.translation (m : Aff) : Vec3 := ⟨m.t0, m.t1, m.t2⟩

def Aff.colY (m : Aff) : Vec3 := ⟨m.m01, m.m11, m.m21⟩

def Aff.colZ (m : Aff) : Vec3 := ⟨m.m02, m.m12, m.m22⟩

/-- The transform part of a realized `EditBone`: head, tail, the vector
passed to `align_roll`, and the `use_connect` flag. -/
structure EditBoneT where
  head : Vec3
  tail : Vec3
  align_roll_arg : Vec3
  use_connect : Bool
deriving DecidableEq, Repr

/-- The transform computation of `realize_bone` in node.py: from the
vnode's `editbone_local_to_armature` matrix and `bone_length` only.
`editbone.head = mul(m, (0,0,0))`, `editbone.tail = mul(m, (0,len,0))`,
`editbone.align_roll(mul(m, (0,0,1)) - editbone.head)`. -/
def realize_bone (m : Aff) (bone_length : ℚ) : EditBoneT :=
  let head := mulAff m ⟨0, 0, 0⟩
  let tail := mulAff m ⟨0, bone_length, 0⟩
  ⟨head, tail, (mulAff m ⟨0, 0, 1⟩).sub head, false⟩

/-! ## Armature realization (`realize_armature` in node.py) -/

/-- Identity orientation, the rotation of a freshly added object. -/
def quatIdentity : Vec3 × ℚ := (⟨0, 0, 0⟩, 1)

/-- The object-level state Blender gives a newly added object and that
`realize_armature` manipulates: location, rotation, scale, parent
(an entity id, if any). -/
structure ObjectT where
  location : Vec3
  rotation : Vec3 × ℚ
  scale : Vec3
  parent : Option Nat
deriving DecidableEq, Repr

/-- `bpy.ops.object.add` places the new object at the 3D-cursor location
with identity rotation and unit scale and no parent. -/
def newObjectAtCursor (cursor : Vec3) : ObjectT :=
  ⟨cursor, quatIdentity, ⟨1, 1, 1⟩, none⟩

/-- The inputs of an ARMATURE vnode that `realize_armature` looks at: the
vnode's own transform data (never read by the function) and the parent's
realized object, when the vnode has a parent. -/
structure ArmVNodeIn where
  trs : Vec3 × (Vec3 × ℚ) × Vec3
  parent : Option (Option Nat)
deriving DecidableEq, Repr

/-- `realize_armature` from node.py: add an armature object (at the 3D
cursor), clear its location to the origin, and set its parent when the
vnode has one.  No part of `vnode.trs` is consulted. -/
def realize_armature (cursor : Vec3) (v : ArmVNodeIn) : ObjectT :=
  let obj := newObjectAtCursor cursor
  let obj := { obj with location := ⟨0, 0, 0⟩ }
  match v.parent with
  | some pObj => { obj with parent := pObj }
  | none => obj

/-! ## Pass 1 of `realize_vtree` (node.py): edit-mode trace semantics

`realize_vnode` walks the vnode tree depth-first.  Realizing an ARMATURE
(`bpy.ops.object.add(..., enter_editmode=True)`) creates the armature
object and enters edit mode in one call; on the way back up (post-order)
the code runs `bpy.ops.object.mode_set(mode='OBJECT')`.  Realizing a BONE
creates an edit bone in its owner armature; OBJECT and (optionally) ROOT
create plain objects.  We record these external calls as an event trace.
Entity creation may fail (raise); the Python has no try/finally around the
recursion, so a raise aborts the walk immediately — the model mirrors this
by stopping the trace and reporting failure. -/

inductive VKind where
  | OBJECT
  | ARMATURE
  | BONE
  | ROOT
deriving DecidableEq, Repr

/-- The static part of a vnode read by pass 1: its kind, a node id, the id
of its `armature_vnode` owner (meaningful for BONE kind) and its ordered
children. -/
inductive SNode where
  | mk (type : VKind) (id : Nat) (armId : Nat) (children : List SNode)

def SNode.type : SNode → VKind
  | .mk ty _ _ _ => ty

def SNode.id : SNode → Nat
  | .mk _ i _ _ => i

def SNode.armId : SNode → Nat
  | .mk _ _ a _ => a

def SNode.children : SNode → List SNode
  | .mk _ _ _ cs => cs

/-- Observable external calls made by pass 1. -/
inductive Ev where
  | enterEdit (a : Nat)
  | exitEdit (a : Nat)
  | createBone (a : Nat) (b : Nat)
  | createObj (n : Nat)
deriving DecidableEq, Repr

mutual

/-- The trace of `realize_vnode` on one vnode, with a failure oracle `f`
(`f id = true` means the entity-creation call for node `id` raises) and
the `add_root` option.  Returns the events emitted before returning or
raising, and whether the call returned normally. -/
def realize1 (f : Nat → Bool) (addRoot : Bool) : SNode → List Ev × Bool
  | .mk ty id armId children =>
    match ty with
    | .OBJECT =>
      if f id then ([], false)
      else
        let rest := realize1List f addRoot children
        (Ev.createObj id :: rest.1, rest.2)
    | .ARMATURE =>
      if f id then ([], false)
      else
        let rest := realize1List f addRoot children
        if rest.2 then (Ev.enterEdit id :: rest.1 ++ [Ev.exitEdit id], true)
        else (Ev.enterEdit id :: rest.1, false)
    | .BONE =>
      if f id then ([], false)
      else
        let rest := realize1List f addRoot children
        (Ev.createBone armId id :: rest.1, rest.2)
    | .ROOT =>
      if addRoot && f id then ([], false)
      else
        let rest := realize1List f addRoot children
        ((if addRoot then [Ev.createObj id] else []) ++ rest.1, rest.2)

/-- The `for child in vnode.children: realize_vnode(child)` loop; a raise
in one child aborts the loop. -/
def realize1List (f : Nat → Bool) (addRoot : Bool) : List SNode → List Ev × Bool
  | [] => ([], true)
  | v :: vs =>
    let head := realize1 f addRoot v
    if head.2 then
      let rest := realize1List f addRoot vs
      (head.1 ++ rest.1, rest.2)
    else head

end

mutual

/-- Well-formedness of a subtree under edit-mode context `c` (`some a` =
inside the subtree of the armature with id `a`).  It packages the spec's
§3 invariants: an ARMATURE only occurs outside any armature subtree (no
nesting, §5), and a BONE only occurs inside the subtree of the armature
that is its `armature_vnode` owner. -/
def wfNode (c : Option Nat) : SNode → Bool
  | .mk ty id armId children =>
    match ty with
    | .ARMATURE => c.isNone && wfList (some id) children
    | .BONE => (c == some armId) && wfList c children
    | _ => wfList c children

def wfList (c : Option Nat) : List SNode → Bool
  | [] => true
  | v :: vs => wfNode c v && wfList c vs

end

mutual

/-- Ids of the ARMATURE vnodes of a tree, in visit order. -/
def armIds : SNode → List Nat
  | .mk ty id _ children =>
    (if ty = .ARMATURE then [id] else []) ++ armIdsList children

def armIdsList : List SNode → List Nat
  | [] => []
  | v :: vs => armIds v ++ armIdsList vs

end

/-- One step of the edit-mode scope discipline: the state is the currently
open armature scope (`none` = object mode).  Entering is only legal with
no scope open (scopes never nest or interleave), exiting only closes the
open scope, and a bone may only be created inside its own armature's open
scope.  `none` as result = discipline violated. -/
def scanEv : Option Nat → Ev → Option (Option Nat)
  | none, .enterEdit a => some (some a)
  | some _, .enterEdit _ => none
  | some a, .exitEdit b => if a = b then some none else none
  | none, .exitEdit _ => none
  | some a, .createBone arm _ => if arm = a then some (some a) else none
  | none, .createBone _ _ => none
  | c, .createObj _ => some c

/-- Run the scope discipline over a trace. -/
def scanTr : Option Nat → List Ev → Option (Option Nat)
  | c, [] => some c
  | c, e :: es =>
    match scanEv c e with
    | some c2 => scanTr c2 es
    | none => none

/-- Events that may occur inside the open scope of armature `a`: bone
creations for `a` and plain object creations. -/
def insideShape (a : Nat) (e : Ev) : Prop :=
  (∃ b, e = Ev.createBone a b) ∨ (∃ n, e = Ev.createObj n)

/-- The §8 scenario tree: one ARMATURE (id 1) containing 3 BONE vnodes. -/
def exampleArm : SNode :=
  .mk .ARMATURE 1 0
    [.mk .BONE 2 1 [.mk .BONE 3 1 []], .mk .BONE 4 1 []]

/-- An armature whose single bone's entity creation fails. -/
def failArm : SNode := .mk .ARMATURE 1 0 [.mk .BONE 2 1 []]

/-- Failure oracle that fails exactly node id 2. -/
def failOn2 : Nat → Bool := fun id => id == 2

/-! ## Pass 2 of `realize_vtree` (node.py)

Pass 2 walks the tree again once every vnode has its `blender_object` and
`blender_name`.  For a vnode whose `mesh` dict carries a non-None `skin`
it creates one vertex group per joint of the skin (named by the joint
vnode's `blender_name`), one ARMATURE modifier whose target is the
armature object of the skin's **first** joint, and one local/local
COPY_TRANSFORMS constraint with the same target.  For a BONE vnode with a
non-None `posebone_s` it sets the scale of the pose bone looked up by the
vnode's `blender_name` in its owner armature's pose.  We embed the scene
as a map from object id to the mutable object state these calls touch. -/

structure ModifierT where
  name : String
  kind : String
  object : Option Nat
  use_vertex_groups : Bool
deriving DecidableEq, Repr

structure ConstraintT where
  kind : String
  owner_space : String
  target_space : String
  target : Option Nat
deriving DecidableEq, Repr

/-- The per-object state pass 2 reads and writes: the ordered vertex
groups, modifiers and constraints of the object, and (for armature
objects) the scale of each pose bone, keyed by bone name. -/
structure ObjState where
  vertex_groups : List String
  modifiers : List ModifierT
  constraints : List ConstraintT
  pose_scale : String → Vec3

/-- The scene: every object id has a state (pass 1 realized them all). -/
def Scene : Type := Nat → ObjState

def updObj (st : Scene) (i : Nat) (o : ObjState) : Scene :=
  fun j => if j = i then o else st j

/-- What `op.node_id_to_vnode[node_id]` provides to pass 2: the joint
vnode's `blender_name` and the object id of its `armature_vnode`'s
realized object. -/
structure JointInfo where
  blender_name : String
  armature_object : Nat
deriving DecidableEq, Repr

/-- The read-only services pass 2 consumes from `op`:
`op.gltf['skins'][i]['joints']` and `op.node_id_to_vnode`. -/
structure Op2 where
  skins : Nat → List Nat
  joint : Nat → JointInfo

/-- The realized vnode attributes pass 2 reads.  `mesh` is `none` when the
vnode has no mesh dict, `some none` when the mesh dict's skin is None,
`some (some s)` when it carries skin id `s`. -/
inductive RVNode where
  | mk (type : VKind) (mesh : Option (Option Nat)) (blender_object : Nat)
      (blender_name : String) (armature_object : Nat)
      (posebone_s : Option Vec3) (children : List RVNode)

def RVNode.type : RVNode → VKind
  | .mk ty _ _ _ _ _ _ => ty

def RVNode.mesh : RVNode → Option (Option Nat)
  | .mk _ m _ _ _ _ _ => m

def RVNode.blender_object : RVNode → Nat
  | .mk _ _ o _ _ _ _ => o

def RVNode.blender_name : RVNode → String
  | .mk _ _ _ n _ _ _ => n

def RVNode.armature_object : RVNode → Nat
  | .mk _ _ _ _ a _ _ => a

def RVNode.posebone_s : RVNode → Option Vec3
  | .mk _ _ _ _ _ p _ => p

def RVNode.children : RVNode → List RVNode
  | .mk _ _ _ _ _ _ cs => cs

/-- The skin id carried by the vnode's mesh dict, if any. -/
def RVNode.skinRef (v : RVNode) : Option Nat :=
  match v.mesh with
  | some (some s) => some s
  | _ => none

inductive Pass2Err where
  | indexOutOfRange
deriving DecidableEq, Repr

/-- The `vnode.mesh and vnode.mesh['skin'] != None` branch of pass 2:
create the vertex groups (in joint-list order), then the `'Skin'` ARMATURE
modifier targeting the armature object of `joints[0]` with
`use_vertex_groups` on, then the local/local COPY_TRANSFORMS constraint
with the same target.  `joints[0]` on an empty joint list raises
(IndexError).  `vertex_groups.new` is embedded as appending the given
name: the names are the joints' container-assigned `blender_name`s, which
are unique within an armature, so the container's rename-on-collision
never fires here. -/
def skinStep (op : Op2) (skin : Nat) (objId : Nat) (st : Scene) :
    Except Pass2Err Scene :=
  let joints := op.skins skin
  let o0 := st objId
  let o1 := { o0 with vertex_groups :=
    o0.vertex_groups ++ joints.map (fun j => (op.joint j).blender_name) }
  let st1 := updObj st objId o1
  match joints with
  | [] => .error .indexOutOfRange
  | j0 :: _ =>
    let arm := (op.joint j0).armature_object
    let o2 := { o1 with modifiers :=
      o1.modifiers ++ [ModifierT.mk "Skin" "ARMATURE" (some arm) true] }
    let o3 := { o2 with constraints := o2.constraints ++
      [ConstraintT.mk "COPY_TRANSFORMS" "LOCAL" "LOCAL" (some arm)] }
    .ok (updObj st1 objId o3)

/-- The `vnode.type == 'BONE' and vnode.posebone_s is not None` branch:
set the scale of the pose bone named `vnode.blender_name` in the pose of
the owner armature's object. -/
def poseStep (v : RVNode) (st : Scene) : Scene :=
  match v.type, v.posebone_s with
  | .BONE, some s =>
    let armO := st v.armature_object
    updObj st v.armature_object { armO with pose_scale :=
      fun n => if n = v.blender_name then s else armO.pose_scale n }
  | _, _ => st

/-- The per-vnode body of `pass2` (without the recursion into children):
the skin branch, then the pose-scale branch. -/
def pass2Visit (op : Op2) (v : RVNode) (st : Scene) :
    Except Pass2Err Scene :=
  let step1 :=
    match v.skinRef with
    | some skin => skinStep op skin v.blender_object st
    | none => .ok st
  match step1 with
  | .error e => .error e
  | .ok st1 => .ok (poseStep v st1)

mutual

/-- `pass2` from node.py: visit the vnode, then its children in order;
an exception aborts the walk. -/
def pass2 (op : Op2) : RVNode → Scene → Except Pass2Err Scene
  | .mk ty m o n a p children, st =>
    match pass2Visit op (.mk ty m o n a p children) st with
    | .error e => .error e
    | .ok st1 => pass2List op children st1

def pass2List (op : Op2) : List RVNode → Scene → Except Pass2Err Scene
  | [], st => .ok st
  | v :: vs, st =>
    match pass2 op v st with
    | .error e => .error e
    | .ok st1 => pass2List op vs st1

end

mutual

/-- All vnodes of a tree in pass-2 visit order (preorder). -/
def rnodes : RVNode → List RVNode
  | .mk ty m o n a p children =>
    .mk ty m o n a p children :: rnodesList children

def rnodesList : List RVNode → List RVNode
  | [] => []
  | v :: vs => rnodes v ++ rnodesList vs

end

/-- Visiting a list of vnodes in order (no recursion into children —
used to re-express `pass2` as a fold over `rnodes`). -/
def foldVisit (op : Op2) : List RVNode → Scene → Except Pass2Err Scene
  | [], st => .ok st
  | v :: vs, st =>
    match pass2Visit op v st with
    | .error e => .error e
    | .ok st1 => foldVisit op vs st1

/-- The wiring state of an object pass 2's skin branch creates. -/
def wiring (o : ObjState) : List String × List ModifierT × List ConstraintT :=
  (o.vertex_groups, o.modifiers, o.constraints)

/-- The object ids of the vnodes whose mesh carries a skin, in visit
order. -/
def skinObjsL (l : List RVNode) : List Nat :=
  l.filterMap (fun w =>
    match w.skinRef with
    | some _ => some w.blender_object
    | none => none)

/-- Whether a vnode's pose branch fires, i.e. it is a BONE with a
non-None `posebone_s`. -/
def writesPose (w : RVNode) : Bool :=
  w.type == VKind.BONE && w.posebone_s.isSome

/-- The (armature object, bone name) keys whose pose scale pass 2 sets,
in visit order. -/
def poseKeysL (l : List RVNode) : List (Nat × String) :=
  l.filterMap (fun w =>
    if writesPose w then some (w.armature_object, w.blender_name)
    else none)

/-- The scene pass 2 produces on success (the input scene on failure). -/
def pass2Result (op : Op2) (t : RVNode) (st : Scene) : Scene :=
  match pass2 op t st with
  | .ok st1 => st1
  | .error _ => st

/-- Example `node_id_to_vnode` table: joints 10 and 11 are bones of the
armature realized as object 100. -/
def exJointInfo : Nat → JointInfo := fun j =>
  if j = 10 then ⟨"J10", 100⟩
  else if j = 11 then ⟨"J11", 100⟩
  else ⟨"J?", 0⟩

/-- Example op: skin 0 has joints [10, 11]; all other skins are empty. -/
def exOp : Op2 := ⟨fun s => if s = 0 then [10, 11] else [], exJointInfo⟩

/-- A freshly realized object: no vertex groups, modifiers or
constraints; all pose-bone scales at the bind-pose value (1,1,1). -/
def exObj0 : ObjState := ⟨[], [], [], fun _ => ⟨1, 1, 1⟩⟩

def exScene : Scene := fun _ => exObj0

/-- A mesh vnode whose mesh carries skin 0, realized as object 5. -/
def exMeshNode : RVNode := .mk .OBJECT (some (some 0)) 5 "Mesh" 0 none []

/-- A BONE vnode with a pose-scale override (2,3,4), owner armature
realized as object 100, realized name "J10". -/
def exBoneNode : RVNode :=
  .mk .BONE none 6 "J10" 100 (some ⟨2, 3, 4⟩) []

/-- Example realized tree for the pass-2 witnesses. -/
def exTree : RVNode := .mk .ROOT none 7 "Root" 0 none [exMeshNode, exBoneNode]

/-- A mesh vnode carrying skin 1, which is empty in `exOp`. -/
def exBadNode : RVNode := .mk .OBJECT (some (some 1)) 8 "Bad" 0 none []

/-! ## Scene Linker (`link_vnode_into_scene` / `link_tree_into_scene`)

We embed the Blender ≥ 2.80 branch: the scene collection's membership is
checked by object name before linking.  (The < 2.80 branch links and
swallows the already-linked exception, giving the same final membership.)
The scene collection is the ordered list of linked object names. -/

/-- A vnode as the linker sees it: its realized object's name (if the
vnode was realized) and its children. -/
inductive LNode where
  | mk (blender_object : Option String) (children : List LNode)

def LNode.blender_object : LNode → Option String
  | .mk o _ => o

def LNode.children : LNode → List LNode
  | .mk _ cs => cs

/-- `link_vnode_into_scene`: if the vnode has a realized object and the
collection does not already contain its name, link it; otherwise do
nothing (an already-linked object is a silent no-op, never an error). -/
def link_vnode_into_scene (v : LNode) (scene : List String) : List String :=
  match v.blender_object with
  | some name => if name ∈ scene then scene else scene ++ [name]
  | none => scene

mutual

/-- `link_tree_into_scene`: link the vnode, then recurse into the
children unconditionally. -/
def link_tree_into_scene : LNode → List String → List String
  | .mk o children, scene =>
    linkList children (link_vnode_into_scene (.mk o children) scene)

def linkList : List LNode → List String → List String
  | [], scene => scene
  | v :: vs, scene => linkList vs (link_tree_into_scene v scene)

end

mutual

/-- The realized names of a vnode tree (the names `link_tree_into_scene`
can add). -/
def treeNames : LNode → List String
  | .mk o children =>
    (match o with
     | some name => [name]
     | none => []) ++ forestNames children

def forestNames : List LNode → List String
  | [] => []
  | v :: vs => treeNames v ++ forestNames vs

end

/-! ## Morph-weight animation binding (morph_weight.py)

`add_morph_weight_animation` fans an animation out to every located mesh
instance.  We embed the per-instance loop: what it reads of an instance
is its realized object's name and whether the object's mesh data has a
shape-key container, and its observable effect is the list of actions it
creates, in order. -/

structure MeshInst where
  name : String
  has_shape_keys : Bool
deriving DecidableEq, Repr

/-- The loop body of `add_morph_weight_animation` over the located mesh
instances: an instance whose mesh data has no shape-key container makes
the whole function RETURN (the code's `return` statement, not a
`continue`), creating no action for it nor for any instance after it;
otherwise an action named `'%s@%s (Morph)'` is created for the
instance. -/
def add_morph_weight_actions (anim : String) :
    List MeshInst → List String
  | [] => []
  | i :: rest =>
    if i.has_shape_keys then
      (anim ++ "@" ++ i.name ++ " (Morph)") ::
        add_morph_weight_actions anim rest
    else []

/-- Example linker tree: an unrealized root, a realized child "A", and a
realized child "B" with a realized grandchild. -/
def exLTree : LNode :=
  .mk none [.mk (some "A") [], .mk (some "B") [.mk (some "C") []]]

end GltfImporter

namespace GltfImporter

theorem findList_eq_flatten (vs : List MVNode) :
    findList vs = (vs.map find_mesh_instances).flatten := by
  induction vs with
  | nil => simp [findList]
  | cons v vs ih => simp [findList, ih]

mutual

theorem find_eq_nil_iff : ∀ v : MVNode,
    (find_mesh_instances v = [] ↔ hasMeshAnywhere v = false)
  | .mk true moved => by
      simp [find_mesh_instances, hasMeshAnywhere]
  | .mk false moved => by
      simpa [find_mesh_instances, hasMeshAnywhere] using
        findList_eq_nil_iff moved

theorem findList_eq_nil_iff : ∀ vs : List MVNode,
    (findList vs = [] ↔ hasMeshAnywhereList vs = false)
  | [] => by simp [findList, hasMeshAnywhereList]
  | v :: vs => by
      have h1 := find_eq_nil_iff v
      have h2 := findList_eq_nil_iff vs
      simp [findList, hasMeshAnywhereList, List.append_eq_nil,
        Bool.or_eq_false_iff, h1, h2]

end

/-- C1: if the vnode's mesh reference is set the locator returns `[vnode]`;
otherwise it returns the in-order flattened concatenation of its results on
the `mesh_moved_to` entries; and the result is empty exactly when no mesh
instance is reachable anywhere in the forwarding chain (a silent empty
answer, not an error).  Termination under the acyclicity precondition is
structural: `mesh_moved_to` chains are subtrees of the `MVNode` inductive,
so `find_mesh_instances` is a total function into finite lists. -/
theorem find_mesh_instances_spec (v : MVNode) :
    find_mesh_instances v =
      (if v.mesh then [v]
       else (v.mesh_moved_to.map find_mesh_instances).flatten) ∧
    (find_mesh_instances v = [] ↔ hasMeshAnywhere v = false) := by
  refine ⟨?_, find_eq_nil_iff v⟩
  match v with
  | .mk true moved => simp [find_mesh_instances, MVNode.mesh]
  | .mk false moved =>
    simp [find_mesh_instances, MVNode.mesh, MVNode.mesh_moved_to,
      findList_eq_flatten]

/-- C5: the realized bone's head is the local-to-armature matrix applied to
(0,0,0), its tail is the matrix applied to (0, bone_length, 0), and the
roll-alignment vector is the matrix applied to (0,0,1) minus the head; the
result is a pure function of the matrix and bone length, and equivalently
head is the matrix's translation, tail is head plus bone_length times the
linear part's Y column, and the roll vector is the linear part's Z column. -/
theorem realize_bone_spec (m : Aff) (len : ℚ) :
    (realize_bone m len).head = mulAff m ⟨0, 0, 0⟩ ∧
    (realize_bone m len).tail = mulAff m ⟨0, len, 0⟩ ∧
    (realize_bone m len).align_roll_arg =
      (mulAff m ⟨0, 0, 1⟩).sub (mulAff m ⟨0, 0, 0⟩) ∧
    (realize_bone m len).head = m.translation ∧
    (realize_bone m len).tail =
      (realize_bone m len).head.add (Vec3.smul len m.colY) ∧
    (realize_bone m len).align_roll_arg = m.colZ := by
  refine ⟨rfl, rfl, rfl, ?_, ?_, ?_⟩
  · simp [realize_bone, mulAff, Aff.translation]
  · simp only [realize_bone, mulAff, Vec3.add, Vec3.smul, Aff.colY,
      Vec3.mk.injEq]
    refine ⟨by ring, by ring, by ring⟩
  · simp only [realize_bone, mulAff, Vec3.sub, Aff.colZ, Vec3.mk.injEq]
    refine ⟨by ring, by ring, by ring⟩

/-- C10: the realized armature object's location is the origin no matter
where the 3D cursor was, its rotation and scale are the defaults of a
fresh object (the vnode's own TRS is never applied — the result is
independent of `trs`), and only the parent link is taken from the vnode. -/
theorem realize_armature_spec (cursor : Vec3) (v : ArmVNodeIn) :
    (realize_armature cursor v).location = ⟨0, 0, 0⟩ ∧
    (realize_armature cursor v).rotation = quatIdentity ∧
    (realize_armature cursor v).scale = ⟨1, 1, 1⟩ ∧
    (realize_armature cursor v).parent =
      (match v.parent with
       | some pObj => pObj
       | none => none) ∧
    (∀ trs₂, realize_armature cursor ⟨trs₂, v.parent⟩ =
      realize_armature cursor v) := by
  obtain ⟨trs, parent⟩ := v
  match parent with
  | none => exact ⟨rfl, rfl, rfl, rfl, fun _ => rfl⟩
  | some pObj => exact ⟨rfl, rfl, rfl, rfl, fun _ => rfl⟩

theorem scanTr_append (c : Option Nat) (t1 t2 : List Ev) :
    scanTr c (t1 ++ t2) =
      match scanTr c t1 with
      | some c2 => scanTr c2 t2
      | none => none := by
  induction t1 generalizing c with
  | nil => simp [scanTr]
  | cons e es ih =>
    simp only [List.cons_append, scanTr]
    cases scanEv c e with
    | none => rfl
    | some c2 => exact ih c2

theorem scanTr_of_insideShape (a : Nat) (tr : List Ev)
    (h : ∀ e ∈ tr, insideShape a e) :
    scanTr (some a) tr = some (some a) := by
  induction tr with
  | nil => rfl
  | cons e es ih =>
    have he := h e (by simp)
    have hrest : scanTr (some a) es = some (some a) :=
      ih (fun x hx => h x (by simp [hx]))
    rcases he with ⟨b, rfl⟩ | ⟨n, rfl⟩
    · simpa [scanTr, scanEv] using hrest
    · simpa [scanTr, scanEv] using hrest

theorem count_enter_of_insideShape (a : Nat) (x : Nat) (tr : List Ev)
    (h : ∀ e ∈ tr, insideShape a e) :
    tr.count (Ev.enterEdit x) = 0 ∧ tr.count (Ev.exitEdit x) = 0 := by
  constructor <;> rw [List.count_eq_zero] <;> intro hmem <;>
    rcases h _ hmem with ⟨b, hb⟩ | ⟨n, hn⟩ <;> simp_all

mutual

theorem realize1_insideShape (f : Nat → Bool) (addRoot : Bool) (a : Nat) :
    ∀ v : SNode, wfNode (some a) v = true →
      ∀ e ∈ (realize1 f addRoot v).1, insideShape a e
  | .mk ty id armId children => by
    cases ty with
    | ARMATURE => simp [wfNode]
    | BONE =>
      intro hwf e he
      simp only [wfNode, Bool.and_eq_true, beq_iff_eq, Option.some.injEq]
        at hwf
      obtain ⟨ha, hch⟩ := hwf
      have hrec := realize1List_insideShape f addRoot a children hch
      simp only [realize1] at he
      by_cases hf : f id
      · simp [hf] at he
      · simp only [hf, if_false, Bool.false_eq_true, List.mem_cons] at he
        rcases he with rfl | he
        · exact Or.inl ⟨id, by rw [ha]⟩
        · exact hrec e he
    | OBJECT =>
      intro hwf e he
      simp only [wfNode] at hwf
      have hrec := realize1List_insideShape f addRoot a children hwf
      simp only [realize1] at he
      by_cases hf : f id
      · simp [hf] at he
      · simp only [hf, if_false, Bool.false_eq_true, List.mem_cons] at he
        rcases he with he | he
        · exact Or.inr ⟨id, he⟩
        · exact hrec e he
    | ROOT =>
      intro hwf e he
      simp only [wfNode] at hwf
      have hrec := realize1List_insideShape f addRoot a children hwf
      simp only [realize1] at he
      by_cases hf : addRoot && f id
      · simp [hf] at he
      · simp only [hf, if_false, Bool.false_eq_true, List.append_eq,
          List.mem_append] at he
        rcases he with he | he
        · by_cases har : addRoot
          · simp only [har, if_true, List.mem_singleton] at he
            exact Or.inr ⟨id, he⟩
          · simp [har] at he
        · exact hrec e he

theorem realize1List_insideShape (f : Nat → Bool) (addRoot : Bool) (a : Nat) :
    ∀ vs : List SNode, wfList (some a) vs = true →
      ∀ e ∈ (realize1List f addRoot vs).1, insideShape a e
  | [] => by simp [realize1List]
  | v :: vs => by
    intro hwf e he
    simp only [wfList, Bool.and_eq_true] at hwf
    obtain ⟨hv, hvs⟩ := hwf
    have h1 := realize1_insideShape f addRoot a v hv
    have h2 := realize1List_insideShape f addRoot a vs hvs
    simp only [realize1List] at he
    by_cases hok : (realize1 f addRoot v).2
    · simp only [hok, if_true, List.mem_append] at he
      rcases he with he | he
      · exact h1 e he
      · exact h2 e he
    · simp only [hok, if_false] at he
      exact h1 e he

end

mutual

theorem armIds_nil_inside (a : Nat) :
    ∀ v : SNode, wfNode (some a) v = true → armIds v = []
  | .mk ty id armId children => by
    cases ty with
    | ARMATURE => simp [wfNode]
    | BONE =>
      intro hwf
      simp only [wfNode, Bool.and_eq_true] at hwf
      simpa [armIds] using armIdsList_nil_inside a children hwf.2
    | OBJECT =>
      intro hwf
      simp only [wfNode] at hwf
      simpa [armIds] using armIdsList_nil_inside a children hwf
    | ROOT =>
      intro hwf
      simp only [wfNode] at hwf
      simpa [armIds] using armIdsList_nil_inside a children hwf

theorem armIdsList_nil_inside (a : Nat) :
    ∀ vs : List SNode, wfList (some a) vs = true → armIdsList vs = []
  | [] => by simp [armIdsList]
  | v :: vs => by
    intro hwf
    simp only [wfList, Bool.and_eq_true] at hwf
    simp [armIdsList, armIds_nil_inside a v hwf.1,
      armIdsList_nil_inside a vs hwf.2]

end

mutual

theorem realize1_top (f : Nat → Bool) (addRoot : Bool) :
    ∀ v : SNode, wfNode none v = true → (realize1 f addRoot v).2 = true →
      scanTr none (realize1 f addRoot v).1 = some none ∧
      ∀ a : Nat,
        (realize1 f addRoot v).1.count (Ev.enterEdit a) =
          (armIds v).count a ∧
        (realize1 f addRoot v).1.count (Ev.exitEdit a) =
          (armIds v).count a
  | .mk ty id armId children => by
    cases ty with
    | BONE => simp [wfNode]
    | OBJECT =>
      intro hwf hok
      simp only [wfNode] at hwf
      simp only [realize1] at hok ⊢
      by_cases hf : f id
      · simp [hf] at hok
      · simp only [hf, Bool.false_eq_true, if_false] at hok ⊢
        obtain ⟨hscan, hcount⟩ := realize1List_top f addRoot children hwf hok
        refine ⟨by simpa [scanTr, scanEv] using hscan, fun a => ?_⟩
        simp [List.count_cons, armIds, armIdsList, (hcount a).1, (hcount a).2]
    | ROOT =>
      intro hwf hok
      simp only [wfNode] at hwf
      cases addRoot with
      | false =>
        simp only [realize1, Bool.false_and, Bool.false_eq_true, if_false]
          at hok ⊢
        obtain ⟨hscan, hcount⟩ := realize1List_top f false children hwf hok
        refine ⟨by simpa using hscan, fun a => ?_⟩
        simpa [armIds, armIdsList] using hcount a
      | true =>
        simp only [realize1] at hok ⊢
        by_cases hf : f id
        · simp [hf] at hok
        · simp only [hf, Bool.true_and, Bool.false_eq_true, if_false]
            at hok ⊢
          obtain ⟨hscan, hcount⟩ := realize1List_top f true children hwf hok
          constructor
          · simpa [scanTr, scanEv] using hscan
          · intro a
            simp [List.count_append, List.count_cons, armIds, armIdsList,
              (hcount a).1, (hcount a).2]
    | ARMATURE =>
      intro hwf hok
      simp only [wfNode, Option.isNone_none, Bool.true_and] at hwf
      simp only [realize1] at hok ⊢
      by_cases hf : f id
      · simp [hf] at hok
      · simp only [hf, Bool.false_eq_true, if_false] at hok ⊢
        by_cases hr : (realize1List f addRoot children).2
        · simp only [hr, if_true] at hok ⊢
          have hsh := realize1List_insideShape f addRoot id children hwf
          have hnil := armIdsList_nil_inside id children hwf
          constructor
          · have h1 : scanTr (some id)
                ((realize1List f addRoot children).1 ++ [Ev.exitEdit id]) =
                some none := by
              rw [scanTr_append, scanTr_of_insideShape id _ hsh]
              simp [scanTr, scanEv]
            simpa [scanTr, scanEv, List.append_eq] using h1
          · intro a
            have hz := count_enter_of_insideShape id a _ hsh
            simp [List.count_cons, List.count_append, armIds, armIdsList,
              hnil, hz.1, hz.2, List.count_nil, scanTr]
        · simp [hr] at hok

theorem realize1List_top (f : Nat → Bool) (addRoot : Bool) :
    ∀ vs : List SNode, wfList none vs = true →
      (realize1List f addRoot vs).2 = true →
      scanTr none (realize1List f addRoot vs).1 = some none ∧
      ∀ a : Nat,
        (realize1List f addRoot vs).1.count (Ev.enterEdit a) =
          (armIdsList vs).count a ∧
        (realize1List f addRoot vs).1.count (Ev.exitEdit a) =
          (armIdsList vs).count a
  | [] => by simp [realize1List, scanTr, armIdsList]
  | v :: vs => by
    intro hwf hok
    simp only [wfList, Bool.and_eq_true] at hwf
    simp only [realize1List] at hok ⊢
    by_cases hv : (realize1 f addRoot v).2
    · simp only [hv, if_true] at hok ⊢
      obtain ⟨hs1, hc1⟩ := realize1_top f addRoot v hwf.1 hv
      obtain ⟨hs2, hc2⟩ := realize1List_top f addRoot vs hwf.2 hok
      constructor
      · simp [scanTr_append, hs1, hs2]
      · intro a
        simp [List.count_append, armIdsList, (hc1 a).1, (hc1 a).2,
          (hc2 a).1, (hc2 a).2]
    · simp only [hv, Bool.false_eq_true, if_false] at hok

end

/-- C3: during Pass 1, on a well-formed vnode tree (armatures never nested
inside another armature's subtree, every bone inside its owner armature's
subtree) with distinct armature ids, a successful run produces a trace in
which every armature's edit-mode scope is entered exactly once and exited
exactly once, and which obeys the edit-mode scope discipline (`scanTr`):
a scope is only opened when no other scope is open — so two armatures'
scopes are never interleaved — every bone creation for an armature happens
while exactly that armature's single scope is open, and every opened scope
is closed. -/
theorem pass1_edit_mode_scope (f : Nat → Bool) (addRoot : Bool) (t : SNode)
    (hwf : wfNode none t = true) (hnd : (armIds t).Nodup)
    (hok : (realize1 f addRoot t).2 = true) :
    scanTr none (realize1 f addRoot t).1 = some none ∧
    ∀ a ∈ armIds t,
      (realize1 f addRoot t).1.count (Ev.enterEdit a) = 1 ∧
      (realize1 f addRoot t).1.count (Ev.exitEdit a) = 1 := by
  obtain ⟨hscan, hcount⟩ := realize1_top f addRoot t hwf hok
  refine ⟨hscan, fun a ha => ?_⟩
  have h1 : (armIds t).count a = 1 := List.count_eq_one_of_mem hnd ha
  exact ⟨(hcount a).1.trans h1, (hcount a).2.trans h1⟩

/-- Witness for C3 at the §8 scenario: one armature (id 1) with 3 bones,
no failures, `add_root` off. -/
theorem pass1_edit_mode_scope_witness :
    scanTr none (realize1 (fun _ => false) false exampleArm).1 = some none ∧
    (realize1 (fun _ => false) false exampleArm).1.count
      (Ev.enterEdit 1) = 1 ∧
    (realize1 (fun _ => false) false exampleArm).1.count
      (Ev.exitEdit 1) = 1 :=
  ⟨(pass1_edit_mode_scope (fun _ => false) false exampleArm (by decide)
      (by decide) (by decide)).1,
   (pass1_edit_mode_scope (fun _ => false) false exampleArm (by decide)
      (by decide) (by decide)).2 1 (by decide)⟩

/-- C4 counterexample: an armature (id 1) whose single bone's entity
creation fails.  The run fails, and the trace is `[enterEdit 1]` — edit
mode was entered but the release (`exitEdit 1`) never happens before the
failure propagates: `realize_vnode` has no try/finally, so the post-order
`mode_set(mode='OBJECT')` is skipped on exceptional unwind. -/
theorem pass1_unwind_counterexample :
    realize1 failOn2 false failArm = ([Ev.enterEdit 1], false) ∧
    Ev.exitEdit 1 ∉ (realize1 failOn2 false failArm).1 := by
  decide

/-- C4 (amended): when realization of an armature's subtree raises after
the armature was created (its scope open), the failure propagates with the
edit-mode scope still open: the trace starts with the armature's
`enterEdit` and contains no matching `exitEdit`. -/
theorem pass1_unwind_no_release (f : Nat → Bool) (addRoot : Bool)
    (v : SNode) (harm : v.type = VKind.ARMATURE)
    (hwf : wfNode none v = true) (hcreate : f v.id = false)
    (hfail : (realize1 f addRoot v).2 = false) :
    (realize1 f addRoot v).1.head? = some (Ev.enterEdit v.id) ∧
    Ev.exitEdit v.id ∉ (realize1 f addRoot v).1 := by
  obtain ⟨ty, id, armId, children⟩ := v
  simp only [SNode.type] at harm
  subst harm
  simp only [SNode.id] at hcreate ⊢
  simp only [wfNode, Option.isNone_none, Bool.true_and] at hwf
  simp only [realize1, hcreate, Bool.false_eq_true, if_false] at hfail ⊢
  by_cases hr : (realize1List f addRoot children).2
  · simp [hr] at hfail
  · simp only [hr, Bool.false_eq_true, if_false] at hfail ⊢
    refine ⟨rfl, fun hmem => ?_⟩
    have hsh := realize1List_insideShape f addRoot id children hwf
    rcases List.mem_cons.mp hmem with hc | hc
    · simp at hc
    · rcases hsh _ hc with ⟨b, hb⟩ | ⟨n, hn⟩ <;> simp_all

/-- Witness for the amended C4 at the concrete failing armature. -/
theorem pass1_unwind_no_release_witness :
    (realize1 failOn2 false failArm).1.head? =
      some (Ev.enterEdit failArm.id) ∧
    Ev.exitEdit failArm.id ∉ (realize1 failOn2 false failArm).1 :=
  pass1_unwind_no_release failOn2 false failArm (by decide) (by decide)
    (by decide) (by decide)

theorem foldVisit_append (op : Op2) (l1 l2 : List RVNode) (st : Scene) :
    foldVisit op (l1 ++ l2) st =
      match foldVisit op l1 st with
      | .error e => .error e
      | .ok st1 => foldVisit op l2 st1 := by
  induction l1 generalizing st with
  | nil => simp [foldVisit]
  | cons v vs ih =>
    simp only [List.cons_append, foldVisit]
    cases pass2Visit op v st with
    | error e => rfl
    | ok st1 => exact ih st1

mutual

theorem pass2_eq_foldVisit (op : Op2) :
    ∀ (v : RVNode) (st : Scene), pass2 op v st = foldVisit op (rnodes v) st
  | .mk ty m o n a p children, st => by
    simp only [pass2, rnodes, foldVisit]
    cases pass2Visit op (.mk ty m o n a p children) st with
    | error e => rfl
    | ok st1 => exact pass2List_eq_foldVisit op children st1

theorem pass2List_eq_foldVisit (op : Op2) :
    ∀ (vs : List RVNode) (st : Scene),
      pass2List op vs st = foldVisit op (rnodesList vs) st
  | [], st => rfl
  | v :: vs, st => by
    simp only [pass2List, rnodesList, foldVisit_append]
    rw [← pass2_eq_foldVisit op v st]
    cases pass2 op v st with
    | error e => rfl
    | ok st1 => exact pass2List_eq_foldVisit op vs st1

end

theorem updObj_wiring_preserve (st : Scene) (i : Nat) (o : ObjState)
    (b : Nat) (h : wiring o = wiring (st i)) :
    wiring (updObj st i o b) = wiring (st b) := by
  simp only [updObj]
  by_cases hb : b = i
  · rw [if_pos hb, h, hb]
  · rw [if_neg hb]

theorem poseStep_wiring (v : RVNode) (st : Scene) (b : Nat) :
    wiring (poseStep v st b) = wiring (st b) := by
  obtain ⟨ty, m, o, n, a, p, children⟩ := v
  cases ty <;> cases p <;> try rfl
  exact updObj_wiring_preserve st a _ b rfl

theorem skinStep_ok_iff (op : Op2) (skin : Nat) (objId : Nat) (st : Scene) :
    (skinStep op skin objId st).isOk = true ↔ op.skins skin ≠ [] := by
  cases h : op.skins skin with
  | nil => simp [skinStep, h, Except.isOk, Except.toBool]
  | cons j0 js => simp [skinStep, h, Except.isOk, Except.toBool]

theorem skinStep_error_of_nil (op : Op2) (skin : Nat) (objId : Nat)
    (st : Scene) (h : op.skins skin = []) :
    skinStep op skin objId st = .error .indexOutOfRange := by
  simp [skinStep, h]

theorem skinStep_frame (op : Op2) (skin : Nat) (objId : Nat)
    (st st1 : Scene) (b : Nat) (hok : skinStep op skin objId st = .ok st1)
    (hne : objId ≠ b) : st1 b = st b := by
  cases h : op.skins skin with
  | nil =>
    simp only [skinStep, h] at hok
    cases hok
  | cons j0 js =>
    simp only [skinStep, h] at hok
    cases hok
    simp [updObj, Ne.symm hne]

theorem skinStep_pose (op : Op2) (skin : Nat) (objId : Nat)
    (st st1 : Scene) (b : Nat) (hok : skinStep op skin objId st = .ok st1) :
    (st1 b).pose_scale = (st b).pose_scale := by
  cases h : op.skins skin with
  | nil =>
    simp only [skinStep, h] at hok
    cases hok
  | cons j0 js =>
    simp only [skinStep, h] at hok
    cases hok
    by_cases hb : b = objId <;> simp [updObj, hb]

theorem skinStep_effect (op : Op2) (skin : Nat) (objId : Nat)
    (st st1 : Scene) (j0 : Nat) (jrest : List Nat)
    (hj : op.skins skin = j0 :: jrest)
    (hok : skinStep op skin objId st = .ok st1) :
    (st1 objId).vertex_groups = (st objId).vertex_groups ++
      ((j0 :: jrest).map (fun j => (op.joint j).blender_name)) ∧
    (st1 objId).modifiers = (st objId).modifiers ++
      [ModifierT.mk "Skin" "ARMATURE"
        (some ((op.joint j0).armature_object)) true] ∧
    (st1 objId).constraints = (st objId).constraints ++
      [ConstraintT.mk "COPY_TRANSFORMS" "LOCAL" "LOCAL"
        (some ((op.joint j0).armature_object))] := by
  simp only [skinStep, hj] at hok
  cases hok
  simp [updObj]

theorem pass2Visit_wiring_frame (op : Op2) (w : RVNode) (st st1 : Scene)
    (b : Nat) (hok : pass2Visit op w st = .ok st1)
    (hnw : w.skinRef = none ∨ w.blender_object ≠ b) :
    wiring (st1 b) = wiring (st b) := by
  simp only [pass2Visit] at hok
  cases hskin : w.skinRef with
  | none =>
    simp only [hskin] at hok
    cases hok
    exact poseStep_wiring w st b
  | some skin =>
    simp only [hskin] at hok
    rcases hnw with hnone | hne
    · rw [hskin] at hnone; cases hnone
    · cases hss : skinStep op skin w.blender_object st with
      | error e =>
        simp only [hss] at hok
        cases hok
      | ok stS =>
        simp only [hss] at hok
        cases hok
        rw [poseStep_wiring]
        rw [skinStep_frame op skin w.blender_object st stS b hss hne]

theorem foldVisit_wiring_frame (op : Op2) (l : List RVNode) :
    ∀ (st st1 : Scene) (b : Nat), foldVisit op l st = .ok st1 →
      (∀ w ∈ l, w.skinRef = none ∨ w.blender_object ≠ b) →
      wiring (st1 b) = wiring (st b) := by
  induction l with
  | nil =>
    intro st st1 b hok _
    cases hok
    rfl
  | cons v vs ih =>
    intro st st1 b hok h
    simp only [foldVisit] at hok
    cases hv : pass2Visit op v st with
    | error e => rw [hv] at hok; cases hok
    | ok stV =>
      rw [hv] at hok
      have h1 := pass2Visit_wiring_frame op v st stV b hv (h v (by simp))
      have h2 := ih stV st1 b hok (fun w hw => h w (by simp [hw]))
      rw [h2, h1]

theorem wiring_fields (o1 o2 : ObjState) (h : wiring o1 = wiring o2) :
    o1.vertex_groups = o2.vertex_groups ∧ o1.modifiers = o2.modifiers ∧
    o1.constraints = o2.constraints := by
  simpa [wiring, Prod.ext_iff] using h

theorem poseStep_pose_frame (v : RVNode) (st : Scene) (b : Nat)
    (nm : String)
    (h : writesPose v = false ∨ v.armature_object ≠ b ∨
      v.blender_name ≠ nm) :
    (poseStep v st b).pose_scale nm = (st b).pose_scale nm := by
  obtain ⟨ty, m, o, n, a, p, children⟩ := v
  cases ty <;> cases p <;> try rfl
  rcases h with h | h | h
  · simp [writesPose, RVNode.type, RVNode.posebone_s] at h
  · simp only [RVNode.armature_object] at h
    simp [poseStep, RVNode.type, RVNode.posebone_s, RVNode.armature_object,
      updObj, Ne.symm h]
  · simp only [RVNode.blender_name] at h
    simp only [poseStep, RVNode.type, RVNode.posebone_s,
      RVNode.armature_object, RVNode.blender_name, updObj]
    by_cases hb : b = a
    · simp [hb, Ne.symm h]
    · simp [hb]

theorem poseStep_pose_effect (v : RVNode) (st : Scene) (s : Vec3)
    (hty : v.type = VKind.BONE) (hps : v.posebone_s = some s) :
    ((poseStep v st) v.armature_object).pose_scale v.blender_name = s := by
  obtain ⟨ty, m, o, n, a, p, children⟩ := v
  simp only [RVNode.type] at hty
  simp only [RVNode.posebone_s] at hps
  subst hty
  subst hps
  simp [poseStep, RVNode.type, RVNode.posebone_s, RVNode.armature_object,
    RVNode.blender_name, updObj]

theorem pass2Visit_pose_frame (op : Op2) (w : RVNode) (st st1 : Scene)
    (b : Nat) (nm : String) (hok : pass2Visit op w st = .ok st1)
    (h : writesPose w = false ∨ w.armature_object ≠ b ∨
      w.blender_name ≠ nm) :
    (st1 b).pose_scale nm = (st b).pose_scale nm := by
  simp only [pass2Visit] at hok
  cases hskin : w.skinRef with
  | none =>
    simp only [hskin] at hok
    cases hok
    exact poseStep_pose_frame w st b nm h
  | some skin =>
    simp only [hskin] at hok
    cases hss : skinStep op skin w.blender_object st with
    | error e =>
      simp only [hss] at hok
      cases hok
    | ok stS =>
      simp only [hss] at hok
      cases hok
      rw [poseStep_pose_frame w stS b nm h,
        skinStep_pose op skin w.blender_object st stS b hss]

theorem pass2Visit_pose_effect (op : Op2) (w : RVNode) (st st1 : Scene)
    (s : Vec3) (hty : w.type = VKind.BONE) (hps : w.posebone_s = some s)
    (hok : pass2Visit op w st = .ok st1) :
    (st1 w.armature_object).pose_scale w.blender_name = s := by
  simp only [pass2Visit] at hok
  cases hskin : w.skinRef with
  | none =>
    simp only [hskin] at hok
    cases hok
    exact poseStep_pose_effect w st s hty hps
  | some skin =>
    simp only [hskin] at hok
    cases hss : skinStep op skin w.blender_object st with
    | error e =>
      simp only [hss] at hok
      cases hok
    | ok stS =>
      simp only [hss] at hok
      cases hok
      exact poseStep_pose_effect w stS s hty hps

theorem foldVisit_pose_frame (op : Op2) (l : List RVNode) :
    ∀ (st st1 : Scene) (b : Nat) (nm : String),
      foldVisit op l st = .ok st1 →
      (∀ w ∈ l, writesPose w = false ∨ w.armature_object ≠ b ∨
        w.blender_name ≠ nm) →
      (st1 b).pose_scale nm = (st b).pose_scale nm := by
  induction l with
  | nil =>
    intro st st1 b nm hok _
    cases hok
    rfl
  | cons v vs ih =>
    intro st st1 b nm hok h
    simp only [foldVisit] at hok
    cases hv : pass2Visit op v st with
    | error e => rw [hv] at hok; cases hok
    | ok stV =>
      rw [hv] at hok
      have h1 := pass2Visit_pose_frame op v st stV b nm hv (h v (by simp))
      have h2 := ih stV st1 b nm hok (fun w hw => h w (by simp [hw]))
      rw [h2, h1]

theorem pass2Visit_skin_effect (op : Op2) (w : RVNode) (st st1 : Scene)
    (skin j0 : Nat) (jrest : List Nat)
    (hskin : w.skinRef = some skin) (hj : op.skins skin = j0 :: jrest)
    (hok : pass2Visit op w st = .ok st1) :
    (st1 w.blender_object).vertex_groups =
      (st w.blender_object).vertex_groups ++
      ((j0 :: jrest).map (fun j => (op.joint j).blender_name)) ∧
    (st1 w.blender_object).modifiers =
      (st w.blender_object).modifiers ++
      [ModifierT.mk "Skin" "ARMATURE"
        (some ((op.joint j0).armature_object)) true] ∧
    (st1 w.blender_object).constraints =
      (st w.blender_object).constraints ++
      [ConstraintT.mk "COPY_TRANSFORMS" "LOCAL" "LOCAL"
        (some ((op.joint j0).armature_object))] := by
  simp only [pass2Visit, hskin] at hok
  cases hss : skinStep op skin w.blender_object st with
  | error e =>
    simp only [hss] at hok
    cases hok
  | ok stS =>
    simp only [hss] at hok
    cases hok
    have heff := skinStep_effect op skin w.blender_object st stS j0 jrest
      hj hss
    have hw := wiring_fields _ _ (poseStep_wiring w stS w.blender_object)
    exact ⟨hw.1.trans heff.1, hw.2.1.trans heff.2.1, hw.2.2.trans heff.2.2⟩

theorem pass2Visit_ok_iff (op : Op2) (w : RVNode) (st : Scene) :
    (pass2Visit op w st).isOk = true ↔
      (∀ skin, w.skinRef = some skin → op.skins skin ≠ []) := by
  cases hskin : w.skinRef with
  | none => simp [pass2Visit, hskin, Except.isOk, Except.toBool]
  | some skin =>
    simp only [pass2Visit, hskin]
    constructor
    · intro hok s hs
      cases hss : skinStep op skin w.blender_object st with
      | error e => simp [hss, Except.isOk, Except.toBool] at hok
      | ok stS =>
        have h1 := (skinStep_ok_iff op skin w.blender_object st).mp
          (by simp [hss, Except.isOk, Except.toBool])
        cases hs
        exact h1
    · intro h
      have h1 : op.skins skin ≠ [] := h skin rfl
      cases hss : skinStep op skin w.blender_object st with
      | error e =>
        have h2 := (skinStep_ok_iff op skin w.blender_object st).mpr h1
        rw [hss] at h2
        simp [Except.isOk, Except.toBool] at h2
      | ok stS => simp [hss, Except.isOk, Except.toBool]

theorem pass2Visit_error_of_nil (op : Op2) (w : RVNode) (st : Scene)
    (skin : Nat) (hskin : w.skinRef = some skin)
    (h : op.skins skin = []) :
    pass2Visit op w st = .error Pass2Err.indexOutOfRange := by
  simp only [pass2Visit, hskin,
    skinStep_error_of_nil op skin w.blender_object st h]

theorem foldVisit_ok_skins (op : Op2) (l : List RVNode) :
    ∀ st : Scene, (foldVisit op l st).isOk = true →
      ∀ w ∈ l, ∀ skin, w.skinRef = some skin → op.skins skin ≠ [] := by
  induction l with
  | nil => simp
  | cons v vs ih =>
    intro st hok w hw skin hskin
    simp only [foldVisit] at hok
    cases hv : pass2Visit op v st with
    | error e => simp [hv, Except.isOk, Except.toBool] at hok
    | ok stV =>
      rw [hv] at hok
      rcases List.mem_cons.mp hw with rfl | hw2
      · exact (pass2Visit_ok_iff op w st).mp
          (by simp [hv, Except.isOk, Except.toBool]) skin hskin
      · exact ih stV hok w hw2 skin hskin

theorem skinObjsL_append (l1 l2 : List RVNode) :
    skinObjsL (l1 ++ l2) = skinObjsL l1 ++ skinObjsL l2 := by
  simp [skinObjsL, List.filterMap_append]

theorem mem_skinObjsL (l : List RVNode) (w : RVNode) (hw : w ∈ l)
    (s : Nat) (hs : w.skinRef = some s) :
    w.blender_object ∈ skinObjsL l := by
  rw [skinObjsL, List.mem_filterMap]
  exact ⟨w, hw, by rw [hs]⟩

theorem poseKeysL_append (l1 l2 : List RVNode) :
    poseKeysL (l1 ++ l2) = poseKeysL l1 ++ poseKeysL l2 := by
  simp [poseKeysL, List.filterMap_append]

theorem mem_poseKeysL (l : List RVNode) (w : RVNode) (hw : w ∈ l)
    (hp : writesPose w = true) :
    (w.armature_object, w.blender_name) ∈ poseKeysL l := by
  rw [poseKeysL, List.mem_filterMap]
  exact ⟨w, hw, by rw [if_pos hp]⟩

/-- C2: for a vnode `v` of the tree whose mesh carries skin id `skin`
(with joint list `j0 :: jrest`), if `v`'s realized object starts with no
vertex groups, modifiers or constraints (pass 1 creates it fresh) and no
other skinned vnode of the tree shares `v`'s realized object, then after a
successful pass 2 over the whole tree `v`'s object has exactly one vertex
group per joint of the skin, in order, named by each joint vnode's
`blender_name`; exactly one modifier — the ARMATURE modifier with
`use_vertex_groups` on, targeting the armature object owning the skin's
first joint; and exactly one constraint — a COPY_TRANSFORMS constraint
with owner and target space LOCAL targeting that same armature object. -/
theorem pass2_skin_wiring (op : Op2) (t : RVNode) (st st2 : Scene)
    (v : RVNode) (skin j0 : Nat) (jrest : List Nat)
    (hmem : v ∈ rnodes t) (hskin : v.skinRef = some skin)
    (hjoints : op.skins skin = j0 :: jrest)
    (hnd : (skinObjsL (rnodes t)).Nodup)
    (hinit : wiring (st v.blender_object) = ([], [], []))
    (hok : pass2 op t st = .ok st2) :
    (st2 v.blender_object).vertex_groups =
      (j0 :: jrest).map (fun j => (op.joint j).blender_name) ∧
    (st2 v.blender_object).modifiers =
      [ModifierT.mk "Skin" "ARMATURE"
        (some ((op.joint j0).armature_object)) true] ∧
    (st2 v.blender_object).constraints =
      [ConstraintT.mk "COPY_TRANSFORMS" "LOCAL" "LOCAL"
        (some ((op.joint j0).armature_object))] := by
  rw [pass2_eq_foldVisit] at hok
  obtain ⟨pre, post, hsplit⟩ := List.append_of_mem hmem
  rw [hsplit] at hok hnd
  rw [skinObjsL_append] at hnd
  have hcons : skinObjsL (v :: post) =
      v.blender_object :: skinObjsL post := by
    simp [skinObjsL, List.filterMap_cons, hskin]
  rw [hcons, List.nodup_append] at hnd
  obtain ⟨hnd1, hnd2, hdisj⟩ := hnd
  have hnotpre : v.blender_object ∉ skinObjsL pre :=
    fun hmem2 => hdisj hmem2 (List.mem_cons_self _ _)
  have hnotpost : v.blender_object ∉ skinObjsL post :=
    (List.nodup_cons.mp hnd2).1
  have hprecond : ∀ w ∈ pre,
      w.skinRef = none ∨ w.blender_object ≠ v.blender_object := by
    intro w hw
    cases hws : w.skinRef with
    | none => exact Or.inl rfl
    | some s =>
      refine Or.inr (fun heq => hnotpre ?_)
      rw [← heq]
      exact mem_skinObjsL pre w hw s hws
  have hpostcond : ∀ w ∈ post,
      w.skinRef = none ∨ w.blender_object ≠ v.blender_object := by
    intro w hw
    cases hws : w.skinRef with
    | none => exact Or.inl rfl
    | some s =>
      refine Or.inr (fun heq => hnotpost ?_)
      rw [← heq]
      exact mem_skinObjsL post w hw s hws
  rw [foldVisit_append] at hok
  cases hpre : foldVisit op pre st with
  | error e => rw [hpre] at hok; cases hok
  | ok stP =>
    rw [hpre] at hok
    simp only [foldVisit] at hok
    cases hv : pass2Visit op v stP with
    | error e => rw [hv] at hok; cases hok
    | ok stV =>
      rw [hv] at hok
      have hframe1 := foldVisit_wiring_frame op pre st stP
        v.blender_object hpre hprecond
      have h0 : (stP v.blender_object).vertex_groups = [] ∧
          (stP v.blender_object).modifiers = [] ∧
          (stP v.blender_object).constraints = [] := by
        simpa [wiring, Prod.ext_iff] using hframe1.trans hinit
      have heff := pass2Visit_skin_effect op v stP stV skin j0 jrest
        hskin hjoints hv
      have hframe2 := foldVisit_wiring_frame op post stV st2
        v.blender_object hok hpostcond
      obtain ⟨hvg2, hmod2, hcon2⟩ := wiring_fields _ _ hframe2
      refine ⟨?_, ?_, ?_⟩
      · rw [hvg2, heff.1, h0.1, List.nil_append]
      · rw [hmod2, heff.2.1, h0.2.1, List.nil_append]
      · rw [hcon2, heff.2.2, h0.2.2, List.nil_append]

/-- Witness for C2: the example mesh node (object 5) skinned by skin 0
with joints [10, 11], after pass 2 over the example tree. -/
theorem pass2_skin_wiring_witness :
    (pass2Result exOp exTree exScene exMeshNode.blender_object).vertex_groups =
      (10 :: [11]).map (fun j => (exOp.joint j).blender_name) ∧
    (pass2Result exOp exTree exScene exMeshNode.blender_object).modifiers =
      [ModifierT.mk "Skin" "ARMATURE"
        (some ((exOp.joint 10).armature_object)) true] ∧
    (pass2Result exOp exTree exScene exMeshNode.blender_object).constraints =
      [ConstraintT.mk "COPY_TRANSFORMS" "LOCAL" "LOCAL"
        (some ((exOp.joint 10).armature_object))] :=
  pass2_skin_wiring exOp exTree exScene
    (pass2Result exOp exTree exScene) exMeshNode 0 10 [11]
    (by simp [rnodes, rnodesList, exTree, exMeshNode, exBoneNode])
    rfl rfl (by decide) rfl rfl

/-- C6: after a successful pass 2 over the tree, (a) a BONE vnode with
`posebone_s = (sx,sy,sz)` has the scale of its pose bone — looked up by
its `blender_name` in its owner armature object's pose — equal to
(sx,sy,sz) whatever the pose scale was before pass 2 (in particular
whatever bind-pose scale pass 1 left), provided no two pose-writing BONE
vnodes share the same (armature object, bone name) key; and (b) for a key
that no pose-writing BONE vnode of the tree has — e.g. a joint with no
override — pass 2 leaves the pose scale untouched. -/
theorem pass2_pose_override (op : Op2) (t : RVNode) (st st2 : Scene)
    (v : RVNode) (hmem : v ∈ rnodes t) (hok : pass2 op t st = .ok st2) :
    (∀ s : Vec3, v.type = VKind.BONE → v.posebone_s = some s →
      (poseKeysL (rnodes t)).Nodup →
      (st2 v.armature_object).pose_scale v.blender_name = s) ∧
    ((v.armature_object, v.blender_name) ∉ poseKeysL (rnodes t) →
      (st2 v.armature_object).pose_scale v.blender_name =
        (st v.armature_object).pose_scale v.blender_name) := by
  rw [pass2_eq_foldVisit] at hok
  constructor
  · intro s hty hps hnd
    obtain ⟨pre, post, hsplit⟩ := List.append_of_mem hmem
    rw [hsplit] at hok hnd
    have hwp : writesPose v = true := by
      simp [writesPose, hty, hps]
    have hcons : poseKeysL (v :: post) =
        (v.armature_object, v.blender_name) :: poseKeysL post := by
      simp [poseKeysL, List.filterMap_cons, hwp]
    rw [poseKeysL_append, hcons, List.nodup_append] at hnd
    have hnotpost :
        (v.armature_object, v.blender_name) ∉ poseKeysL post :=
      (List.nodup_cons.mp hnd.2.1).1
    have hpostcond : ∀ w ∈ post, writesPose w = false ∨
        w.armature_object ≠ v.armature_object ∨
        w.blender_name ≠ v.blender_name := by
      intro w hw
      by_cases hwp2 : writesPose w
      · by_cases harm : w.armature_object = v.armature_object
        · by_cases hnm : w.blender_name = v.blender_name
          · exfalso
            apply hnotpost
            have hk := mem_poseKeysL post w hw hwp2
            rwa [harm, hnm] at hk
          · exact Or.inr (Or.inr hnm)
        · exact Or.inr (Or.inl harm)
      · exact Or.inl (by simpa using hwp2)
    rw [foldVisit_append] at hok
    cases hpre : foldVisit op pre st with
    | error e => rw [hpre] at hok; cases hok
    | ok stP =>
      rw [hpre] at hok
      simp only [foldVisit] at hok
      cases hv : pass2Visit op v stP with
      | error e => rw [hv] at hok; cases hok
      | ok stV =>
        rw [hv] at hok
        have heff := pass2Visit_pose_effect op v stP stV s hty hps hv
        have hframe := foldVisit_pose_frame op post stV st2
          v.armature_object v.blender_name hok hpostcond
        rw [hframe, heff]
  · intro hnot
    apply foldVisit_pose_frame op (rnodes t) st st2
      v.armature_object v.blender_name hok
    intro w hw
    by_cases hwp2 : writesPose w
    · by_cases harm : w.armature_object = v.armature_object
      · by_cases hnm : w.blender_name = v.blender_name
        · exfalso
          apply hnot
          have hk := mem_poseKeysL (rnodes t) w hw hwp2
          rwa [harm, hnm] at hk
        · exact Or.inr (Or.inr hnm)
      · exact Or.inr (Or.inl harm)
    · exact Or.inl (by simpa using hwp2)

/-- Witness for C6: the example BONE vnode with override (2,3,4), owner
armature object 100, name "J10", after pass 2 over the example tree. -/
theorem pass2_pose_override_witness :
    (pass2Result exOp exTree exScene exBoneNode.armature_object).pose_scale
      exBoneNode.blender_name = Vec3.mk 2 3 4 :=
  (pass2_pose_override exOp exTree exScene
      (pass2Result exOp exTree exScene) exBoneNode
      (by simp [rnodes, rnodesList, exTree, exMeshNode, exBoneNode])
      rfl).1
    (Vec3.mk 2 3 4) rfl rfl (by decide)

/-- C9: a successful pass 2 requires every skin referenced by a mesh
vnode of the tree to have a non-empty joint list (the armature target of
the binding modifier is taken from the skin's first joint), and the error
branch is reachable: visiting a vnode whose mesh carries a skin with an
empty joint list fails with the index-out-of-range error. -/
theorem pass2_skin_requires_joints (op : Op2) (t : RVNode) (st : Scene)
    (hok : (pass2 op t st).isOk = true) :
    (∀ w ∈ rnodes t, ∀ skin, w.skinRef = some skin →
      op.skins skin ≠ []) ∧
    (∀ (w : RVNode) (skin : Nat) (st0 : Scene), w.skinRef = some skin →
      op.skins skin = [] →
      pass2Visit op w st0 = .error Pass2Err.indexOutOfRange) := by
  constructor
  · rw [pass2_eq_foldVisit] at hok
    exact foldVisit_ok_skins op (rnodes t) st hok
  · intro w skin st0 hskin hnil
    exact pass2Visit_error_of_nil op w st0 skin hskin hnil

/-- Witness for C9: pass 2 over the example tree succeeds and skin 0 is
non-empty; visiting the bad node (skin 1, empty) fails. -/
theorem pass2_skin_requires_joints_witness :
    exOp.skins 0 ≠ [] ∧
    pass2Visit exOp exBadNode exScene =
      .error Pass2Err.indexOutOfRange :=
  ⟨(pass2_skin_requires_joints exOp exTree exScene (by decide)).1
      exMeshNode
      (by simp [rnodes, rnodesList, exTree, exMeshNode, exBoneNode])
      0 rfl,
   (pass2_skin_requires_joints exOp exTree exScene (by decide)).2
      exBadNode 1 exScene rfl rfl⟩

theorem link_vnode_supset (v : LNode) (s : List String) (x : String)
    (hx : x ∈ s) : x ∈ link_vnode_into_scene v s := by
  cases ho : v.blender_object with
  | none => simpa [link_vnode_into_scene, ho] using hx
  | some name =>
    simp only [link_vnode_into_scene, ho]
    split
    · exact hx
    · simp [hx]

theorem link_vnode_mem_name (v : LNode) (s : List String) (name : String)
    (h : v.blender_object = some name) :
    name ∈ link_vnode_into_scene v s := by
  simp only [link_vnode_into_scene, h]
  split
  · assumption
  · simp

theorem link_vnode_noop (v : LNode) (s : List String)
    (h : ∀ name, v.blender_object = some name → name ∈ s) :
    link_vnode_into_scene v s = s := by
  cases ho : v.blender_object with
  | none => simp [link_vnode_into_scene, ho]
  | some name => simp [link_vnode_into_scene, ho, h name ho]

mutual

theorem linkT_supset : ∀ (t : LNode) (s : List String) (x : String),
    x ∈ s → x ∈ link_tree_into_scene t s
  | .mk o children, s, x, hx => by
    simp only [link_tree_into_scene]
    exact linkL_supset children _ x (link_vnode_supset _ s x hx)

theorem linkL_supset : ∀ (l : List LNode) (s : List String) (x : String),
    x ∈ s → x ∈ linkList l s
  | [], _, _, hx => hx
  | v :: vs, s, x, hx => linkL_supset vs _ x (linkT_supset v s x hx)

end

mutual

theorem linkT_names : ∀ (t : LNode) (s : List String) (x : String),
    x ∈ treeNames t → x ∈ link_tree_into_scene t s
  | .mk o children, s, x, hx => by
    simp only [treeNames, List.mem_append] at hx
    simp only [link_tree_into_scene]
    rcases hx with hx | hx
    · cases o with
      | none => simp at hx
      | some name =>
        simp only [List.mem_singleton] at hx
        subst hx
        exact linkL_supset children _ x
          (link_vnode_mem_name (.mk (some x) children) s x rfl)
    · exact linkL_names children _ x hx

theorem linkL_names : ∀ (l : List LNode) (s : List String) (x : String),
    x ∈ forestNames l → x ∈ linkList l s
  | [], s, x, hx => by simp [forestNames] at hx
  | v :: vs, s, x, hx => by
    simp only [forestNames, List.mem_append] at hx
    rcases hx with hx | hx
    · exact linkL_supset vs _ x (linkT_names v s x hx)
    · exact linkL_names vs _ x hx

end

mutual

theorem linkT_noop : ∀ (t : LNode) (s : List String),
    (∀ x ∈ treeNames t, x ∈ s) → link_tree_into_scene t s = s
  | .mk o children, s, h => by
    simp only [link_tree_into_scene]
    have h1 : link_vnode_into_scene (.mk o children) s = s := by
      apply link_vnode_noop
      intro name hname
      apply h
      simp only [LNode.blender_object] at hname
      simp [treeNames, hname]
    rw [h1]
    exact linkL_noop children s
      (fun x hx => h x (by simp [treeNames, List.mem_append, hx]))

theorem linkL_noop : ∀ (l : List LNode) (s : List String),
    (∀ x ∈ forestNames l, x ∈ s) → linkList l s = s
  | [], s, _ => rfl
  | v :: vs, s, h => by
    simp only [linkList]
    have h1 : link_tree_into_scene v s = s :=
      linkT_noop v s
        (fun x hx => h x (by simp [forestNames, List.mem_append, hx]))
    rw [h1]
    exact linkL_noop vs s
      (fun x hx => h x (by simp [forestNames, List.mem_append, hx]))

end

/-- C7: the Scene Linker is idempotent — linking a whole tree twice into
the same scene collection leaves exactly the same membership as linking
it once (here proved as equality of the resulting collections);
re-linking a vnode whose realized name is already a member is a silent
no-op (the collection is returned unchanged, no error value exists in the
function); and an unrealized vnode links nothing itself while its
children are still recursed into. -/
theorem link_tree_idempotent (t : LNode) (s : List String) :
    link_tree_into_scene t (link_tree_into_scene t s) =
      link_tree_into_scene t s ∧
    (∀ (v : LNode) (s0 : List String) (name : String),
      v.blender_object = some name → name ∈ s0 →
      link_vnode_into_scene v s0 = s0) ∧
    (∀ (v : LNode) (s0 : List String), v.blender_object = none →
      link_vnode_into_scene v s0 = s0 ∧
      link_tree_into_scene v s0 = linkList v.children s0) := by
  refine ⟨?_, ?_, ?_⟩
  · exact linkT_noop t _ (fun x hx => linkT_names t s x hx)
  · intro v s0 name hv hmem
    simp [link_vnode_into_scene, hv, hmem]
  · intro v s0 hv
    obtain ⟨o, children⟩ := v
    simp only [LNode.blender_object] at hv
    subst hv
    exact ⟨rfl, rfl⟩

/-- Witness for C7 at the example tree and a collection already holding
"B". -/
theorem link_tree_idempotent_witness :
    link_tree_into_scene exLTree (link_tree_into_scene exLTree ["B"]) =
      link_tree_into_scene exLTree ["B"] ∧
    link_vnode_into_scene (.mk (some "A") []) ["A"] = ["A"] ∧
    link_vnode_into_scene (.mk none [.mk (some "A") []]) ["B"] = ["B"] ∧
    link_tree_into_scene (.mk none [.mk (some "A") []]) ["B"] =
      linkList [.mk (some "A") []] ["B"] :=
  ⟨(link_tree_idempotent exLTree ["B"]).1,
   (link_tree_idempotent exLTree ["B"]).2.1 (.mk (some "A") []) ["A"] "A"
     rfl (by decide),
   ((link_tree_idempotent exLTree ["B"]).2.2
     (.mk none [.mk (some "A") []]) ["B"] rfl).1,
   ((link_tree_idempotent exLTree ["B"]).2.2
     (.mk none [.mk (some "A") []]) ["B"] rfl).2⟩

/-- C8 counterexample: two located instances of the same source node,
the first without a shape-key container, the second with one.  The code
creates NO action at all — in particular none for the second instance —
because the missing shape-key container triggers a `return` out of the
whole function rather than a `continue` to the next instance. -/
theorem morph_weight_counterexample :
    add_morph_weight_actions "A"
      [MeshInst.mk "m1" false, MeshInst.mk "m2" true] = [] ∧
    ("A" ++ "@" ++ "m2" ++ " (Morph)") ∉
      add_morph_weight_actions "A"
        [MeshInst.mk "m1" false, MeshInst.mk "m2" true] := by
  constructor
  · rfl
  · intro h
    simp [add_morph_weight_actions] at h

/-- C8 (amended): a located mesh instance without a shape-key container
is a silent no-op for that instance — no action is created and no error
is raised — but it also ends binding for the source node: the function
returns, so actions are created exactly for the instances with shape
keys before the first one without, and for none after it. -/
theorem morph_weight_early_return (anim : String) (pre post : List MeshInst)
    (bad : MeshInst) (hpre : ∀ i ∈ pre, i.has_shape_keys = true)
    (hbad : bad.has_shape_keys = false) :
    add_morph_weight_actions anim (pre ++ bad :: post) =
      pre.map (fun i => anim ++ "@" ++ i.name ++ " (Morph)") := by
  induction pre with
  | nil => simp [add_morph_weight_actions, hbad]
  | cons i is ih =>
    have hi := hpre i (by simp)
    simp only [List.cons_append, add_morph_weight_actions, hi, if_true,
      List.map, List.append_eq]
    rw [ih (fun j hj => hpre j (by simp [hj]))]

/-- Witness for the amended C8: instances m0 (keys), m1 (no keys),
m2 (keys) — only m0 gets an action. -/
theorem morph_weight_early_return_witness :
    add_morph_weight_actions "A"
      ([MeshInst.mk "m0" true] ++
        MeshInst.mk "m1" false :: [MeshInst.mk "m2" true]) =
      [MeshInst.mk "m0" true].map
        (fun i => "A" ++ "@" ++ i.name ++ " (Morph)") :=
  morph_weight_early_return "A" [MeshInst.mk "m0" true]
    [MeshInst.mk "m2" true] (MeshInst.mk "m1" false) (by decide) rfl

end GltfImporter
